import Mathlib

/-!
Verification of the MSSA decomposition core of the training-signal repository.

The embedding below follows `src/feature_eng/plugins/core/mssa_decomposer.py`
(`MSSADecomposer.core`) and the standardizer / per-tick rolling loop of
`src/q_datagen_multi_v2.py`.  Matrices are rational-valued lists of rows; the
external `pymssa` and `sklearn` libraries are abstracted as structures of
deterministic functions; Python runtime failures (NameError, AttributeError,
IndexError, ZeroDivisionError) are made explicit in an error type, because the
control flow of `core` depends on them: the method reads several names that are
never bound (`grouped_output` during grouping of the very first segment, and
`output` after the segment loop).
-/

/-- Rational-valued matrix (a numpy 2-D array), as a list of rows. -/
abbrev Mat : Type := List (List ℚ)

/-- Configuration of the decomposer plugin: `--window_size` (int, default 30)
and `--num_components` (int, default 0 = auto via SVHT).  `num_components` is
parsed with `type=int`, so negative values are representable. -/
structure Conf where
  window_size : ℕ
  num_components : ℤ
deriving DecidableEq

/-- Python runtime errors the embedded code can raise.  `insufficientData` is
the error class named by the specification; it is part of the vocabulary so
that statements can compare the code's behaviour against it (the code itself
never raises it). -/
inductive PyError where
  | nameError (n : String)
  | attributeError (n : String)
  | indexError
  | zeroDivisionError
  | insufficientData
deriving DecidableEq

/-- Observable decomposition calls made by `core`: an SVHT-estimating fit
(`MSSA(n_components='svht').fit`) on a given segment, or a fit with an
explicitly supplied rank (`MSSA(n_components=rank).fit`). -/
inductive Ev where
  | svhtFit (seg : ℕ)
  | rankFit (seg : ℕ) (rank : ℤ)
deriving DecidableEq

/-- Whether an event is an SVHT rank-estimating fit. -/
def isSvhtEv : Ev → Bool
  | .svhtFit _ => true
  | .rankFit _ _ => false

/-- The external `pymssa` library, abstracted as deterministic functions of the
fitted data (the spec requires the decomposition to be deterministic for a
fixed input).  `svhtRank` is the rank the SVHT rule estimates from a fitted
segment; `comp` is `mssa.components_`; `groupedComp` is
`mssa.grouped_components_[j]` after `set_ts_component_groups(j, groups)`. -/
structure MSSALib where
  svhtRank : ℕ → Mat → ℕ
  comp : ℤ → ℕ → Mat → Mat
  groupedComp : ℤ → ℕ → Mat → List (List ℕ) → ℕ → Mat

/-- Line 75 of mssa_decomposer.py: the manually set component grouping applied
to every feature and every segment. -/
def ts0_groups : List (List ℕ) :=
  [[0], [1], [2], [3], [4, 5], [6], [7], [8], [9, 10], [11], [12]]

/-- Row slice `m[first:last, :]` (numpy slicing clips out-of-range bounds,
as does `List.drop`/`List.take`). -/
def sliceM (m : Mat) (b : ℕ × ℕ) : Mat := (m.drop b.1).take (b.2 - b.1)

/-- Number of columns of the dataset, `input_ds.shape[1]`. -/
def nCols (m : Mat) : ℕ := (m.headD []).length

/-- Line 40: `segments = rows_d // (2*window_size)`. -/
def numSegments (rows w : ℕ) : ℕ := rows / (2 * w)

/-- Lines 43-47: bounds of segment `i`: `first = i*(2*window_size)` and
`last = (i+1)*(2*window_size)` except for the final segment, whose upper
bound is `rows_d`. -/
def segmentBound (rows w segs i : ℕ) : ℕ × ℕ :=
  (i * (2 * w), if i ≠ segs - 1 then (i + 1) * (2 * w) else rows)

/-- The ordered list of segment bounds produced by the segmenter. -/
def segmentsOf (rows w : ℕ) : List (ℕ × ℕ) :=
  (List.range (numSegments rows w)).map (segmentBound rows w (numSegments rows w))

/-- The data slice of segment 0, `input_ds[0 : last0, :]`. -/
def seg0 (conf : Conf) (m : Mat) : Mat :=
  sliceM m (segmentBound m.length conf.window_size
    (numSegments m.length conf.window_size) 0)

/-- The rank value bound at segment 0 (lines 51-61): the SVHT estimate of
segment 0 when `num_components == 0`, otherwise `conf.num_components`
verbatim. -/
def rank0 (lib : MSSALib) (conf : Conf) (m : Mat) : ℤ :=
  if conf.num_components = 0 then (lib.svhtRank conf.window_size (seg0 conf m) : ℤ)
  else conf.num_components

/-- The decomposition event of segment 0: an SVHT fit when
`num_components == 0`, otherwise a fit with the configured value. -/
def evZero (conf : Conf) : Ev :=
  if conf.num_components = 0 then Ev.svhtFit 0
  else Ev.rankFit 0 conf.num_components

/-- Local state of the segment loop of `core`.  `rank`, `outputDs` and
`groupedOutput` model the Python locals `rank`, `output_ds` and
`grouped_output`; `none` means the name is not bound (reading it raises
NameError).  `grouped_output` is never initialized anywhere in the method,
which is the accumulation bug. -/
structure CoreSt where
  rank : Option ℤ
  outputDs : Option Mat
  groupedOutput : Option (List Mat)
  trace : List Ev

/-- State at loop entry: none of the three locals is bound yet. -/
def initSt : CoreSt := ⟨none, none, none, []⟩

/-- Lines 50-64: choose the `n_components` for segment `i` and fit.  At `i = 0`
either the SVHT fit (when `num_components == 0`) or a fit with the configured
value; at `i > 0` a fit with the previously bound local `rank` (NameError if it
were unbound).  Returns the value bound to `rank` and the emitted fit event. -/
def rankPhase (lib : MSSALib) (conf : Conf) (sdw : Mat) (i : ℕ) (rk : Option ℤ) :
    Except PyError ℤ × List Ev :=
  if i = 0 then
    if conf.num_components = 0 then
      (Except.ok ((lib.svhtRank conf.window_size sdw : ℕ) : ℤ), [Ev.svhtFit i])
    else
      (Except.ok conf.num_components, [Ev.rankFit i conf.num_components])
  else
    match rk with
    | none => (Except.error (PyError.nameError "rank"), [])
    | some r => (Except.ok r, [Ev.rankFit i r])

/-- Lines 66-70: at `i = 0` the local `output_ds` is assigned a deep copy of
`mssa.components_`; at `i > 0` the code evaluates
`np.concatenate((output_ds, mssa.components_), axis=1)` — reading `output_ds` —
but never assigns the result, so the local keeps its old value. -/
def ungroupedPhase (lib : MSSALib) (conf : Conf) (sdw : Mat) (i : ℕ) (r : ℤ)
    (od : Option Mat) : Except PyError (Option Mat) :=
  if i = 0 then Except.ok (some (lib.comp r conf.window_size sdw))
  else
    match od with
    | none => Except.error (PyError.nameError "output_ds")
    | some prev => Except.ok (some prev)

/-- Lines 81-85, one feature `j`: at `i = 0` the code runs
`grouped_output.append(...)` — a read of the never-initialized name
`grouped_output`, hence NameError; at `i > 0` it would read and reassign
`grouped_output[j]` (concatenation along axis 0). -/
def groupStep (g : ℕ → Mat) (i j : ℕ) (go : Option (List Mat)) :
    Except PyError (Option (List Mat)) :=
  if i = 0 then
    match go with
    | none => Except.error (PyError.nameError "grouped_output")
    | some l => Except.ok (some (l ++ [g j]))
  else
    match go with
    | none => Except.error (PyError.nameError "grouped_output")
    | some l =>
      if j < l.length then Except.ok (some (l.set j (l.getD j [] ++ g j)))
      else Except.error PyError.indexError

/-- Lines 76-85: the loop `for j in range(0, cols_d)` over features. -/
def groupLoop (g : ℕ → Mat) (i cols : ℕ) (go : Option (List Mat)) :
    Except PyError (Option (List Mat)) :=
  (List.range cols).foldlM (fun acc j => groupStep g i j acc) go

/-- One iteration of the segment loop (lines 41-99): slice the segment, run the
rank/fit phase, the ungrouped-components statement, then the per-feature
grouping loop.  The iteration stops at the first raised error; the trace of fit
events performed so far is kept in the state either way. -/
def coreIter (lib : MSSALib) (conf : Conf) (input : Mat) (segs cols i : ℕ)
    (st : CoreSt) : CoreSt × Option PyError :=
  let sdw := sliceM input (segmentBound input.length conf.window_size segs i)
  let rp := rankPhase lib conf sdw i st.rank
  let st1 : CoreSt := { st with trace := st.trace ++ rp.2 }
  match rp.1 with
  | .error e => (st1, some e)
  | .ok r =>
    let st2 : CoreSt := { st1 with rank := some r }
    match ungroupedPhase lib conf sdw i r st2.outputDs with
    | .error e => (st2, some e)
    | .ok od =>
      let st3 : CoreSt := { st2 with outputDs := od }
      match groupLoop (fun j => lib.groupedComp r conf.window_size sdw ts0_groups j)
          i cols st3.groupedOutput with
      | .error e => (st3, some e)
      | .ok go => ({ st3 with groupedOutput := go }, none)

/-- The segment loop itself, over the listed segment indices, aborting at the
first raised error. -/
def runSegs (lib : MSSALib) (conf : Conf) (input : Mat) (segs cols : ℕ) :
    List ℕ → CoreSt → CoreSt × Option PyError
  | [], st => (st, none)
  | i :: rest, st =>
    match coreIter lib conf input segs cols i st with
    | (st2, some e) => (st2, some e)
    | (st2, none) => runSegs lib conf input segs cols rest st2

/-- `MSSADecomposer.core` (lines 32-126).  Returns the trace of decomposition
calls together with the outcome.  Line 40 divides by `2*window_size`
(ZeroDivisionError when the window size is 0).  After the segment loop, line
102 evaluates `output.shape`, and the name `output` is bound nowhere in the
method, so even a run that survives the loop raises NameError; the
`return self.output_ds` on line 126 is unreachable. -/
def core (lib : MSSALib) (conf : Conf) (input : Mat) :
    List Ev × Except PyError Mat :=
  if 2 * conf.window_size = 0 then ([], Except.error PyError.zeroDivisionError)
  else
    let segs := numSegments input.length conf.window_size
    let cols := nCols input
    match runSegs lib conf input segs cols (List.range segs) initSt with
    | (st, some e) => (st.trace, Except.error e)
    | (st, none) => (st.trace, Except.error (PyError.nameError "output"))

/-- Whether a result of `core` is a normal return. -/
def exceptIsOk : Except PyError Mat → Bool
  | .ok _ => true
  | .error _ => false

/-- Shape of the buffer allocated on line 38,
`np.empty(shape=(rows_d - window_size, 1))` — the only value `core` would
return (line 126): `T - window_size` rows and a single column. -/
def outputAllocShape (conf : Conf) (rows : ℕ) : ℕ × ℕ :=
  (rows - conf.window_size, 1)

/-- A concrete instantiation of the abstracted pymssa library, used to evaluate
the embedded code on explicit inputs. -/
def trivLib : MSSALib where
  svhtRank := fun _ _ => 13
  comp := fun _ _ _ => []
  groupedComp := fun _ _ _ _ _ => []

/-- A concrete 4-row, 1-column input matrix. -/
def exM1 : Mat := [[1], [2], [3], [4]]

/-- A concrete 1-row input matrix (fewer rows than one double window for any
window size above 0). -/
def exRow1 : Mat := [[1]]

/-- The sklearn numeric kernel abstracted: `scaleOf` maps a fitted per-column
variance to the stored `scale_` (the floating-point square root, with sklearn's
zero-variance handling); exact square roots do not exist in ℚ, so this single
floating-point operation is kept abstract. -/
structure SkLib where
  scaleOf : ℚ → ℚ

/-- Column `j` of a matrix. -/
def colOf (m : Mat) (j : ℕ) : List ℚ := m.map (fun r => r.getD j 0)

/-- Arithmetic mean of a list (sklearn `mean_`). -/
def listMean (xs : List ℚ) : ℚ := xs.sum / xs.length

/-- Population variance of a list (sklearn `var_`). -/
def listVar (xs : List ℚ) : ℚ :=
  ((xs.map (fun x => (x - listMean xs) ^ 2)).sum) / xs.length

/-- Per-column fitted statistics `(mean_, var_)` of `StandardScaler.fit`. -/
def fitStats (m : Mat) : List (ℚ × ℚ) :=
  (List.range (nCols m)).map (fun j => (listMean (colOf m j), listVar (colOf m j)))

/-- `StandardScaler.transform` on one row: `(x - mean_) / scale_`. -/
def transformRow (nl : SkLib) (stats : List (ℚ × ℚ)) (row : List ℚ) : List ℚ :=
  List.zipWith (fun s x => (x - s.1) / nl.scaleOf s.2) stats row

/-- Line 66 of q_datagen_multi_v2.py: the number of rows the scaler is fitted
on, `(num_ticks*3)//4` (floor division). -/
def fitRowsCount (T : ℕ) : ℕ := T * 3 / 4

/-- The claim's fit-row count, `⌈0.75·T⌉` (spec §3: "fitted once on the first
⌈0.75·T⌉ rows").  Stated from the spec's words for comparison with
`fitRowsCount`, which is translated from the code. -/
def claimedFitRowsCount (T : ℕ) : ℕ := Nat.ceil ((0.75 : ℚ) * T)

/-- Lines 63-70 of q_datagen_multi_v2.py: fit a `StandardScaler` on the slice
`my_data[0:(num_ticks*3)//4, :]`, then transform the whole dataset with it
(the scaler is fitted exactly once; this one fitted scaler is applied to every
row, including the rows beyond the fitted slice). -/
def qStandardize (nl : SkLib) (m : Mat) : Mat :=
  let tsData := m.take (fitRowsCount m.length)
  let stats := fitStats tsData
  m.map (transformRow nl stats)

/-- A pymssa `MSSA` object as the rolling loop sees it: the constructor stores
the hyperparameters (`nComponents = none` encodes the string `'svht'`), while
the `rank_` attribute (`rankA`) is assigned only inside `fit` — it does not
exist on a freshly constructed object. -/
structure MSSAObj where
  nComponents : Option ℤ
  windowSize : ℕ
  rankA : Option ℕ

/-- Python attribute read `mssa.rank_`: AttributeError when the attribute has
not been assigned. -/
def readRankAttr (m : MSSAObj) : Except PyError ℕ :=
  match m.rankA with
  | none => Except.error (PyError.attributeError "rank_")
  | some r => Except.ok r

/-- Python name read of `window_size` in q_datagen_multi_v2.py: the script
binds `p_window_size` (line 47) but never `window_size`, so the read on line 84
always raises NameError. -/
def readWindowSizeName : Except PyError ℕ :=
  Except.error (PyError.nameError "window_size")

/-- One iteration of the per-tick rolling loop (lines 78-86).  At `i == 0` the
script constructs `MSSA(n_components='svht', ...)` and immediately prints
`str(mssa.rank_)` (line 81) — an attribute read before any fit.  At `i > 0` it
reads `mssa.rank_` from the previous object.  Line 84 then slices
`s_data[i:i+2*window_size, :]` through the unbound name `window_size`, so the
fit and append on lines 85-86 are unreachable; the slice in the `.ok` payload
below is the dead continuation. -/
def rollStep (w : ℕ) (sData : Mat) (i : ℕ) (mssaO : Option MSSAObj) :
    Except PyError (MSSAObj × Mat) :=
  match
    (if i = 0 then
      let m : MSSAObj := ⟨none, w, none⟩
      (readRankAttr m).map (fun _ => m)
    else
      match mssaO with
      | none => Except.error (PyError.nameError "mssa")
      | some prev => (readRankAttr prev).map
          (fun r => (⟨some (r : ℤ), w, none⟩ : MSSAObj))) with
  | .error e => .error e
  | .ok m2 =>
    match readWindowSizeName with
    | .error e => .error e
    | .ok ws => Except.ok (m2, (sData.drop i).take (i + 2 * ws - i))

/-- The rolling loop over tick indices, aborting at the first raised error. -/
def rollLoop (w : ℕ) (sData : Mat) :
    List ℕ → Option MSSAObj → List Mat → Except PyError (List Mat)
  | [], _, output => Except.ok output
  | i :: rest, mssaO, output =>
    match rollStep w sData i mssaO with
    | .error e => .error e
    | .ok m2 => rollLoop w sData rest (some m2.1) (output ++ [m2.2])

/-- Lines 73-93 of q_datagen_multi_v2.py: the per-tick variant iterates
`for i in range(0, num_ticks - (2*p_window_size))` — stride 1 — and after the
loop line 93 reads `output[0]` (IndexError when nothing was appended). -/
def qRolling (w : ℕ) (sData : Mat) : Except PyError (List Mat) :=
  match rollLoop w sData (List.range (sData.length - 2 * w)) none [] with
  | .error e => .error e
  | .ok output =>
    match output with
    | [] => Except.error PyError.indexError
    | o => Except.ok o

/-- A concrete sklearn kernel for witnesses. -/
def skLibOne : SkLib := ⟨fun v => v⟩

/-- A concrete 25-row, 1-column standardized matrix. -/
def ex25 : Mat := List.replicate 25 [0]

/-- A concrete 5-row, 1-column matrix (5 is not divisible by 4, separating
floor from ceiling in the fit-row count). -/
def exM5 : Mat := [[1], [2], [3], [4], [5]]


lemma except_error_bind {α β : Type} (e : PyError) (f : α → Except PyError β) :
    (Except.error e >>= f) = Except.error e := rfl

lemma coreIter_trace (lib : MSSALib) (conf : Conf) (input : Mat)
    (segs cols i : ℕ) (st : CoreSt) :
    (coreIter lib conf input segs cols i st).1.trace
      = st.trace ++ (rankPhase lib conf
          (sliceM input (segmentBound input.length conf.window_size segs i))
          i st.rank).2 := by
  unfold coreIter
  rcases h1 : (rankPhase lib conf
      (sliceM input (segmentBound input.length conf.window_size segs i))
      i st.rank).1 with e | r
  · simp [h1]
  · rcases h2 : ungroupedPhase lib conf
        (sliceM input (segmentBound input.length conf.window_size segs i))
        i r st.outputDs with e | od
    · simp [h1, h2]
    · rcases h3 : groupLoop (fun j => lib.groupedComp r conf.window_size
          (sliceM input (segmentBound input.length conf.window_size segs i))
          ts0_groups j) i cols st.groupedOutput with e | go
      · simp [h1, h2, h3]
      · simp [h1, h2, h3]

lemma coreIter_rank_of_ok (lib : MSSALib) (conf : Conf) (input : Mat)
    (segs cols i : ℕ) (st : CoreSt) (r : ℤ)
    (h : (rankPhase lib conf
        (sliceM input (segmentBound input.length conf.window_size segs i))
        i st.rank).1 = Except.ok r) :
    (coreIter lib conf input segs cols i st).1.rank = some r := by
  unfold coreIter
  rcases h2 : ungroupedPhase lib conf
      (sliceM input (segmentBound input.length conf.window_size segs i))
      i r st.outputDs with e | od
  · simp [h, h2]
  · rcases h3 : groupLoop (fun j => lib.groupedComp r conf.window_size
        (sliceM input (segmentBound input.length conf.window_size segs i))
        ts0_groups j) i cols st.groupedOutput with e | go
    · simp [h, h2, h3]
    · simp [h, h2, h3]

lemma runSegs_pos (lib : MSSALib) (conf : Conf) (input : Mat)
    (segs cols : ℕ) (r : ℤ) (idxs : List ℕ) :
    ∀ st : CoreSt, (∀ i ∈ idxs, i ≠ 0) → st.rank = some r →
    ∃ t, (runSegs lib conf input segs cols idxs st).1.trace = st.trace ++ t
       ∧ ∀ ev ∈ t, ∃ i, i ≠ 0 ∧ ev = Ev.rankFit i r := by
  induction idxs with
  | nil => intro st _ _; exact ⟨[], by simp [runSegs], by simp⟩
  | cons i rest ih =>
    intro st hall hrk
    have hi : i ≠ 0 := hall i (List.mem_cons_self i rest)
    have hrp : rankPhase lib conf
        (sliceM input (segmentBound input.length conf.window_size segs i))
        i st.rank = (Except.ok r, [Ev.rankFit i r]) := by
      rw [hrk]; simp [rankPhase, hi]
    have htr : (coreIter lib conf input segs cols i st).1.trace
        = st.trace ++ [Ev.rankFit i r] := by
      rw [coreIter_trace, hrp]
    have hrk2 : (coreIter lib conf input segs cols i st).1.rank = some r :=
      coreIter_rank_of_ok lib conf input segs cols i st r (by rw [hrp])
    rcases hc : coreIter lib conf input segs cols i st with ⟨st2, e?⟩
    have htr2 : st2.trace = st.trace ++ [Ev.rankFit i r] := by rw [← htr, hc]
    have hrk3 : st2.rank = some r := by rw [← hrk2, hc]
    cases e? with
    | some e =>
      refine ⟨[Ev.rankFit i r], ?_, ?_⟩
      · simp [runSegs, hc, htr2]
      · intro ev hev
        rw [List.mem_singleton] at hev
        exact ⟨i, hi, hev⟩
    | none =>
      obtain ⟨t, ht1, ht2⟩ := ih st2
        (fun j hj => hall j (List.mem_cons_of_mem _ hj)) hrk3
      refine ⟨[Ev.rankFit i r] ++ t, ?_, ?_⟩
      · simp only [runSegs, hc]
        rw [ht1, htr2, List.append_assoc]
      · intro ev hev
        rcases List.mem_append.mp hev with hh | hh
        · rw [List.mem_singleton] at hh
          exact ⟨i, hi, hh⟩
        · exact ht2 ev hh

lemma core_fst (lib : MSSALib) (conf : Conf) (m : Mat)
    (hw : 2 * conf.window_size ≠ 0) :
    (core lib conf m).1
      = (runSegs lib conf m (numSegments m.length conf.window_size) (nCols m)
          (List.range (numSegments m.length conf.window_size)) initSt).1.trace := by
  unfold core
  rw [if_neg hw]
  dsimp only
  rcases h : runSegs lib conf m (numSegments m.length conf.window_size) (nCols m)
      (List.range (numSegments m.length conf.window_size)) initSt with ⟨st, e?⟩
  cases e? <;> simp [h]

lemma core_trace_nil (lib : MSSALib) (conf : Conf) (m : Mat)
    (h : numSegments m.length conf.window_size = 0) :
    (core lib conf m).1 = [] := by
  by_cases hw : 2 * conf.window_size = 0
  · unfold core; rw [if_pos hw]
  · rw [core_fst lib conf m hw, h]
    simp [runSegs, initSt]

lemma rankPhase_zero (lib : MSSALib) (conf : Conf) (sdw : Mat) (rk : Option ℤ) :
    rankPhase lib conf sdw 0 rk
      = (Except.ok (if conf.num_components = 0
            then ((lib.svhtRank conf.window_size sdw : ℕ) : ℤ)
            else conf.num_components),
         [if conf.num_components = 0 then Ev.svhtFit 0
          else Ev.rankFit 0 conf.num_components]) := by
  by_cases h : conf.num_components = 0 <;> simp [rankPhase, h]

lemma core_char (lib : MSSALib) (conf : Conf) (m : Mat)
    (hs : 1 ≤ numSegments m.length conf.window_size) :
    ∃ t, (core lib conf m).1 = evZero conf :: t
       ∧ ∀ ev ∈ t, ∃ i, i ≠ 0 ∧ ev = Ev.rankFit i (rank0 lib conf m) := by
  have hw : 2 * conf.window_size ≠ 0 := by
    intro h0
    rw [numSegments, h0, Nat.div_zero] at hs
    omega
  obtain ⟨k, hk⟩ : ∃ k, numSegments m.length conf.window_size = k + 1 :=
    ⟨numSegments m.length conf.window_size - 1, by omega⟩
  have hrange : List.range (numSegments m.length conf.window_size)
      = 0 :: (List.range k).map Nat.succ := by
    rw [hk]; exact List.range_succ_eq_map k
  have hrp : rankPhase lib conf
      (sliceM m (segmentBound m.length conf.window_size
        (numSegments m.length conf.window_size) 0)) 0 initSt.rank
      = (Except.ok (rank0 lib conf m), [evZero conf]) := by
    rw [rankPhase_zero]
    by_cases h : conf.num_components = 0 <;> simp [h, rank0, evZero, seg0]
  have htr : (coreIter lib conf m (numSegments m.length conf.window_size)
      (nCols m) 0 initSt).1.trace = [evZero conf] := by
    rw [coreIter_trace, hrp]
    simp [initSt]
  have hrk : (coreIter lib conf m (numSegments m.length conf.window_size)
      (nCols m) 0 initSt).1.rank = some (rank0 lib conf m) :=
    coreIter_rank_of_ok lib conf m (numSegments m.length conf.window_size)
      (nCols m) 0 initSt (rank0 lib conf m) (by rw [hrp])
  rw [core_fst lib conf m hw, hrange]
  rcases hc : coreIter lib conf m (numSegments m.length conf.window_size)
      (nCols m) 0 initSt with ⟨st2, e?⟩
  have htr2 : st2.trace = [evZero conf] := by rw [← htr, hc]
  have hrk2 : st2.rank = some (rank0 lib conf m) := by rw [← hrk, hc]
  cases e? with
  | some e =>
    refine ⟨[], ?_, by simp⟩
    simp [runSegs, hc, htr2]
  | none =>
    obtain ⟨t, ht1, ht2⟩ := runSegs_pos lib conf m
      (numSegments m.length conf.window_size) (nCols m) (rank0 lib conf m)
      ((List.range k).map Nat.succ) st2
      (fun j hj => by
        rcases List.mem_map.mp hj with ⟨a, _, rfl⟩
        exact Nat.succ_ne_zero a) hrk2
    refine ⟨t, ?_, ht2⟩
    simp only [runSegs, hc]
    rw [ht1, htr2]
    rfl

lemma segmentsOf_getD (T w i : ℕ) (h : i < numSegments T w) :
    (segmentsOf T w).getD i (0, 0) = segmentBound T w (numSegments T w) i := by
  simp [segmentsOf, List.getD_eq_getElem?_getD, List.getElem?_map,
    List.getElem?_range h]

lemma segmentsOf_length (T w : ℕ) :
    (segmentsOf T w).length = numSegments T w := by
  simp [segmentsOf]

lemma groupLoop_zero_none (g : ℕ → Mat) (cols : ℕ) (h : 1 ≤ cols) :
    groupLoop g 0 cols none = Except.error (PyError.nameError "grouped_output") := by
  obtain ⟨c, rfl⟩ : ∃ c, cols = c + 1 := ⟨cols - 1, by omega⟩
  rw [groupLoop, List.range_succ_eq_map, List.foldlM_cons]
  simp [groupStep, except_error_bind]

/-- C1.  The spec requires every segment's grouped matrix to be accumulated —
including the very first segment's — but the reference implementation appends
to the never-initialized local `grouped_output`, so processing a 2-segment,
1-feature input stops at segment 0 with a NameError: after segment 0 the
accumulated structure holds nothing at all, and segments after the first are
never even decomposed (the trace holds exactly one fit event). -/
theorem c1_first_segment_accumulation_lost :
    core trivLib ⟨1, 0⟩ exM1
      = ([Ev.svhtFit 0], Except.error (PyError.nameError "grouped_output")) := rfl

/-- C2.  The decomposition pipeline never returns a matrix at all on any
input: every execution path of `core` raises (ZeroDivisionError for a zero
window, otherwise the NameError on `grouped_output` or on `output`), so in
particular no (T − window_size) × (F × 11) matrix is ever produced; the only
buffer the method would have returned, `self.output_ds`, is allocated with a
single column. -/
theorem c2_core_never_returns_matrix :
    ∀ (lib : MSSALib) (conf : Conf) (m : Mat),
      exceptIsOk (core lib conf m).2 = false ∧
      (outputAllocShape conf m.length).2 = 1 := by
  intro lib conf m
  refine ⟨?_, rfl⟩
  by_cases hw : 2 * conf.window_size = 0
  · unfold core; rw [if_pos hw]; rfl
  · unfold core; rw [if_neg hw]; dsimp only
    rcases h : runSegs lib conf m (numSegments m.length conf.window_size)
        (nCols m) (List.range (numSegments m.length conf.window_size))
        initSt with ⟨st, e?⟩
    cases e? <;> simp [h, exceptIsOk]

/-- C4.  On every input with at least one segment and at least one feature
column, `core` raises the unbound-variable error on `grouped_output` while
grouping the first segment, so it never returns normally on such inputs. -/
theorem c4_grouping_unbound_variable (lib : MSSALib) (conf : Conf) (m : Mat)
    (hs : 1 ≤ numSegments m.length conf.window_size) (hc : 1 ≤ nCols m) :
    (core lib conf m).2 = Except.error (PyError.nameError "grouped_output") := by
  have hw : 2 * conf.window_size ≠ 0 := by
    intro h0
    rw [numSegments, h0, Nat.div_zero] at hs
    omega
  obtain ⟨k, hk⟩ : ∃ k, numSegments m.length conf.window_size = k + 1 :=
    ⟨numSegments m.length conf.window_size - 1, by omega⟩
  have hrange : List.range (numSegments m.length conf.window_size)
      = 0 :: (List.range k).map Nat.succ := by
    rw [hk]; exact List.range_succ_eq_map k
  have hgl : ∀ g : ℕ → Mat, groupLoop g 0 (nCols m) none
      = Except.error (PyError.nameError "grouped_output") :=
    fun g => groupLoop_zero_none g (nCols m) hc
  unfold core
  rw [if_neg hw]
  dsimp only
  rw [hrange]
  by_cases hnc : conf.num_components = 0 <;>
    simp [runSegs, coreIter, rankPhase, ungroupedPhase, hnc, hgl, initSt]

/-- C4 witness: a concrete 4-row, 1-column input with window size 1 has two
segments and one feature, and `core` raises the `grouped_output` NameError. -/
theorem c4_witness :
    1 ≤ numSegments exM1.length 1 ∧ 1 ≤ nCols exM1 ∧
    (core trivLib ⟨1, 7⟩ exM1).2
      = Except.error (PyError.nameError "grouped_output") :=
  ⟨by decide, by decide,
   c4_grouping_unbound_variable trivLib ⟨1, 7⟩ exM1 (by decide) (by decide)⟩

/-- C5.  For a positive window size and at least one segment, the segmenter
produces `T / (2*w)` segments; segment `i` starts at `i*2*w`, every non-final
segment ends at `(i+1)*2*w`, the first starts at row 0, the last ends at row
`T`, consecutive segments are contiguous (each end equals the next start), and
every segment is nonempty (start strictly below end), hence the segments are
disjoint and cover `[0, T)`. -/
theorem c5_segmentation (T w : ℕ) (hw : 0 < w) (hs : 1 ≤ numSegments T w) :
    (segmentsOf T w).length = T / (2 * w)
  ∧ ((segmentsOf T w).getD 0 (0, 0)).1 = 0
  ∧ (∀ i, i < (segmentsOf T w).length →
      ((segmentsOf T w).getD i (0, 0)).1 = i * (2 * w))
  ∧ (∀ i, i + 1 < (segmentsOf T w).length →
      ((segmentsOf T w).getD i (0, 0)).2 = (i + 1) * (2 * w))
  ∧ ((segmentsOf T w).getD ((segmentsOf T w).length - 1) (0, 0)).2 = T
  ∧ (∀ i, i + 1 < (segmentsOf T w).length →
      ((segmentsOf T w).getD i (0, 0)).2 = ((segmentsOf T w).getD (i + 1) (0, 0)).1)
  ∧ (∀ i, i < (segmentsOf T w).length →
      ((segmentsOf T w).getD i (0, 0)).1 < ((segmentsOf T w).getD i (0, 0)).2) := by
  have h2w : 0 < 2 * w := by omega
  have hmul : numSegments T w * (2 * w) ≤ T := Nat.div_mul_le_self T (2 * w)
  refine ⟨by rw [segmentsOf_length]; rfl, ?_, ?_, ?_, ?_, ?_, ?_⟩
  · rw [segmentsOf_getD T w 0 (by omega)]
    simp [segmentBound]
  · intro i hi
    rw [segmentsOf_length] at hi
    rw [segmentsOf_getD T w i hi]
    rfl
  · intro i hi
    rw [segmentsOf_length] at hi
    rw [segmentsOf_getD T w i (by omega)]
    simp only [segmentBound]
    rw [if_pos (by omega)]
  · rw [segmentsOf_length]
    rw [segmentsOf_getD T w (numSegments T w - 1) (by omega)]
    simp only [segmentBound]
    rw [if_neg (by omega)]
  · intro i hi
    rw [segmentsOf_length] at hi
    rw [segmentsOf_getD T w i (by omega), segmentsOf_getD T w (i + 1) (by omega)]
    simp only [segmentBound]
    rw [if_pos (by omega)]
  · intro i hi
    rw [segmentsOf_length] at hi
    rw [segmentsOf_getD T w i hi]
    simp only [segmentBound]
    by_cases hlast : i ≠ numSegments T w - 1
    · rw [if_pos hlast]
      exact Nat.mul_lt_mul_of_lt_of_le (by omega) (le_refl (2 * w)) h2w
    · rw [if_neg hlast]
      push_neg at hlast
      subst hlast
      calc (numSegments T w - 1) * (2 * w)
          < numSegments T w * (2 * w) :=
            Nat.mul_lt_mul_of_lt_of_le (by omega) (le_refl (2 * w)) h2w
        _ ≤ T := hmul

/-- C5 witness: T = 5, w = 1 yields two segments, (0,2) and (2,5). -/
theorem c5_witness :
    0 < 1 ∧ 1 ≤ numSegments 5 1 ∧ (segmentsOf 5 1).length = 5 / (2 * 1) ∧
    ((segmentsOf 5 1).getD ((segmentsOf 5 1).length - 1) (0, 0)).2 = 5 :=
  ⟨by decide, by decide, (c5_segmentation 5 1 (by decide) (by decide)).1,
   (c5_segmentation 5 1 (by decide) (by decide)).2.2.2.2.1⟩

/-- C3.  For every non-negative configured `num_components`: every SVHT
rank-estimating fit in the trace of `core` is on segment 0 and only under
`num_components = 0`; every explicit-rank fit carries exactly the segment-0
rank `rank0`; at most one SVHT estimation occurs; `rank0` is the configured
value verbatim when it is positive and otherwise the SVHT estimate from
segment 0; and with at least one segment and `num_components = 0` the SVHT
fit on segment 0 is actually performed. -/
theorem c3_rank_frozen_from_segment0 (lib : MSSALib) (conf : Conf) (m : Mat)
    (hnc : 0 ≤ conf.num_components) :
    (∀ ev ∈ (core lib conf m).1, ∀ s, ev = Ev.svhtFit s →
       s = 0 ∧ conf.num_components = 0)
  ∧ (∀ ev ∈ (core lib conf m).1, ∀ s r, ev = Ev.rankFit s r →
       r = rank0 lib conf m)
  ∧ (core lib conf m).1.countP isSvhtEv ≤ 1
  ∧ rank0 lib conf m = (if 0 < conf.num_components then conf.num_components
       else ((lib.svhtRank conf.window_size (seg0 conf m) : ℕ) : ℤ))
  ∧ (1 ≤ numSegments m.length conf.window_size → conf.num_components = 0 →
       Ev.svhtFit 0 ∈ (core lib conf m).1) := by
  have hr0 : rank0 lib conf m
      = (if 0 < conf.num_components then conf.num_components
         else ((lib.svhtRank conf.window_size (seg0 conf m) : ℕ) : ℤ)) := by
    unfold rank0
    by_cases h0 : conf.num_components = 0
    · rw [if_pos h0, if_neg (by omega)]
    · rw [if_neg h0, if_pos (by omega)]
  by_cases hs : 1 ≤ numSegments m.length conf.window_size
  · obtain ⟨t, ht, hall⟩ := core_char lib conf m hs
    refine ⟨?_, ?_, ?_, hr0, ?_⟩
    · intro ev hev s hevs
      rw [ht] at hev
      rcases List.mem_cons.mp hev with rfl | hmem
      · unfold evZero at hevs
        by_cases h0 : conf.num_components = 0
        · rw [if_pos h0] at hevs
          injection hevs with h
          exact ⟨h.symm, h0⟩
        · rw [if_neg h0] at hevs
          exact absurd hevs (by simp)
      · obtain ⟨i, hi, rfl⟩ := hall ev hmem
        exact absurd hevs (by simp)
    · intro ev hev s r hevs
      rw [ht] at hev
      rcases List.mem_cons.mp hev with rfl | hmem
      · unfold evZero at hevs
        by_cases h0 : conf.num_components = 0
        · rw [if_pos h0] at hevs
          exact absurd hevs (by simp)
        · rw [if_neg h0] at hevs
          injection hevs with h1 h2
          rw [← h2]
          unfold rank0
          rw [if_neg h0]
      · obtain ⟨i, hi, rfl⟩ := hall ev hmem
        injection hevs with h1 h2
        exact h2.symm
    · rw [ht, List.countP_cons]
      have hzero : t.countP isSvhtEv = 0 :=
        List.countP_eq_zero.mpr (fun ev hev => by
          obtain ⟨i, hi, rfl⟩ := hall ev hev
          simp [isSvhtEv])
      rw [hzero]
      by_cases h0 : conf.num_components = 0 <;> simp [evZero, isSvhtEv, h0]
    · intro _ h0
      have hev0 : evZero conf = Ev.svhtFit 0 := by
        unfold evZero; rw [if_pos h0]
      rw [ht, hev0]
      exact List.mem_cons_self _ t
  · have ht : (core lib conf m).1 = [] :=
      core_trace_nil lib conf m (by omega)
    refine ⟨?_, ?_, ?_, hr0, ?_⟩
    · intro ev hev; rw [ht] at hev; exact absurd hev (List.not_mem_nil ev)
    · intro ev hev; rw [ht] at hev; exact absurd hev (List.not_mem_nil ev)
    · rw [ht]; simp
    · intro h; exact absurd h hs

/-- C3 witness: window 1, `num_components = 0`, 4×1 input — two segments, the
SVHT fit on segment 0 appears in the trace. -/
theorem c3_witness :
    (0 : ℤ) ≤ 0 ∧ Ev.svhtFit 0 ∈ (core trivLib ⟨1, 0⟩ exM1).1 :=
  ⟨by decide,
   (c3_rank_frozen_from_segment0 trivLib ⟨1, 0⟩ exM1 (by decide)).2.2.2.2
     (by decide) (by decide)⟩

/-- C6 counterexample.  On a 1-row input with window size 30 (zero segments)
the pipeline does abort, but with a NameError on the unbound name `output`
(line 102), not with any `InsufficientData` error: no such check exists in the
code. -/
theorem c6_cex_not_insufficient_data :
    (core trivLib ⟨30, 0⟩ exRow1).2 = Except.error (PyError.nameError "output")
  ∧ PyError.nameError "output" ≠ PyError.insufficientData :=
  ⟨rfl, by decide⟩

/-- C6 amended: with a positive window size and `T // (2*window_size) == 0`,
the run aborts — never completing and never returning an output matrix — but
via the unbound-variable NameError on `output` after the (empty) segment loop,
not via a dedicated `InsufficientData` error. -/
theorem c6_amended_abort_without_insufficient_data
    (lib : MSSALib) (conf : Conf) (m : Mat) (hw : 0 < conf.window_size)
    (hs : numSegments m.length conf.window_size = 0) :
    (core lib conf m).2 = Except.error (PyError.nameError "output") := by
  have hw2 : 2 * conf.window_size ≠ 0 := by omega
  unfold core
  rw [if_neg hw2]
  dsimp only
  rw [hs]
  simp [runSegs, initSt]

/-- C6 witness: the 1-row input with window size 30. -/
theorem c6_witness :
    0 < 30 ∧ numSegments exRow1.length 30 = 0 ∧
    (core trivLib ⟨30, 5⟩ exRow1).2 = Except.error (PyError.nameError "output") :=
  ⟨by decide, by decide,
   c6_amended_abort_without_insufficient_data trivLib ⟨30, 5⟩ exRow1
     (by decide) (by decide)⟩

/-- C7 counterexample.  The claim's partition gives component 9 (and 10) a
singleton group; the code's `ts0_groups` contains no singleton `[9]` — it
groups 9 and 10 as the pair `[9, 10]` — while having 11 groups in total. -/
theorem c7_cex_nine_not_singleton :
    ts0_groups.count [9] = 0 ∧ ts0_groups.count [9, 10] = 1
  ∧ ts0_groups.length = 11 := by
  refine ⟨by decide, by decide, by decide⟩

/-- C7 amended: the default partition is an 11-group scheme with nine
singleton groups (components 0–3, 6–8, 11, 12) and two pair groups {4,5} and
{9,10}; every component index 0–12 appears in exactly one group, and no other
index is mentioned. -/
theorem c7_amended_partition :
    ts0_groups = [[0], [1], [2], [3], [4, 5], [6], [7], [8], [9, 10], [11], [12]]
  ∧ ts0_groups.length = 11
  ∧ ts0_groups.countP (fun g => g.length == 1) = 9
  ∧ ts0_groups.count [4, 5] = 1
  ∧ ts0_groups.count [9, 10] = 1
  ∧ ((List.range 13).all fun k =>
      ts0_groups.countP (fun g => g.contains k) == 1) = true
  ∧ ts0_groups.flatten.all (fun k => Nat.blt k 13) = true := by
  exact ⟨rfl, by decide, by decide, by decide, by decide, by decide, by decide⟩

/-- C8 counterexample.  On a 5-row input the code fits the scaler on the first
`(5*3)//4 = 3` rows, while the claim's `⌈0.75·5⌉` is 4 rows: the fitted slice
has 3 rows, not 4. -/
theorem c8_cex_floor_not_ceiling :
    fitRowsCount 5 = 3 ∧ claimedFitRowsCount 5 = 4
  ∧ (exM5.take (fitRowsCount exM5.length)).length = 3 := by
  refine ⟨rfl, ?_, rfl⟩
  unfold claimedFitRowsCount
  rw [show ((0.75 : ℚ) * (5 : ℕ)) = 15 / 4 by norm_num]
  rw [Nat.ceil_eq_iff (by norm_num)]
  norm_num

/-- C8 amended: the standardizer fits per-column mean and variance on exactly
the first `⌊0.75·T⌋` rows (floor: `(T*3)//4`), and applies the one fitted
scaler's `(x − mean)/scale` to every row of the full matrix — the output has
all `T` rows, and each row `i`, including every row of the held-out suffix, is
transformed with the statistics of the fitted slice. -/
theorem c8_amended_standardizer (nl : SkLib) (m : Mat) (i : ℕ)
    (h : i < m.length) :
    (qStandardize nl m).length = m.length
  ∧ (qStandardize nl m).getD i []
      = transformRow nl (fitStats (m.take (fitRowsCount m.length))) (m.getD i []) := by
  constructor
  · simp [qStandardize]
  · simp [qStandardize, List.getD_eq_getElem?_getD, List.getElem?_map,
      List.getElem?_eq_getElem h]

/-- C8 witness: on the 4-row input the fitted slice is rows 0-2; row 3 — a
held-out suffix row — is still transformed with the slice's statistics. -/
theorem c8_witness :
    3 < exM1.length
  ∧ ((qStandardize skLibOne exM1).length = exM1.length
     ∧ (qStandardize skLibOne exM1).getD 3 []
         = transformRow skLibOne (fitStats (exM1.take (fitRowsCount exM1.length)))
             (exM1.getD 3 [])) :=
  ⟨by decide, c8_amended_standardizer skLibOne exM1 3 (by decide)⟩

/-- C9.  The per-tick rolling variant crashes on its very first step on any
input long enough to enter the loop: at `i == 0` the script prints
`str(mssa.rank_)` on a freshly constructed (never fitted) MSSA object, an
attribute read that fails — and the slice on line 84 references the unbound
name `window_size` besides — so no step's decomposition is ever computed and
no rank is ever produced, let alone reused. -/
theorem c9_rolling_crashes_at_step0 (w : ℕ) (sData : Mat)
    (h : 0 < sData.length - 2 * w) :
    qRolling w sData = Except.error (PyError.attributeError "rank_") := by
  obtain ⟨k, hk⟩ : ∃ k, sData.length - 2 * w = k + 1 :=
    ⟨sData.length - 2 * w - 1, by omega⟩
  unfold qRolling
  rw [hk, List.range_succ_eq_map]
  simp [rollLoop, rollStep, readRankAttr, Except.map]

/-- C9 witness: 25 rows with window size 10 enter the loop (5 steps would be
attempted) and the run fails at step 0. -/
theorem c9_witness :
    0 < ex25.length - 2 * 10
  ∧ qRolling 10 ex25 = Except.error (PyError.attributeError "rank_") :=
  ⟨by decide, c9_rolling_crashes_at_step0 10 ex25 (by decide)⟩

/-- C10.  For every configured `num_components ≠ 0` — including negative
values — `core` never performs SVHT estimation, every decomposition call in
its trace carries the configured value verbatim as its rank, and with at
least one segment the segment-0 fit with that verbatim value is actually
performed: no range validation intervenes, and only the exact value 0
triggers estimation. -/
theorem c10_nonzero_rank_used_verbatim (lib : MSSALib) (conf : Conf) (m : Mat)
    (h : conf.num_components ≠ 0) :
    (∀ ev ∈ (core lib conf m).1, ∀ s, ev ≠ Ev.svhtFit s)
  ∧ (∀ ev ∈ (core lib conf m).1, ∀ s r, ev = Ev.rankFit s r →
       r = conf.num_components)
  ∧ (1 ≤ numSegments m.length conf.window_size →
       Ev.rankFit 0 conf.num_components ∈ (core lib conf m).1) := by
  have hr0 : rank0 lib conf m = conf.num_components := by
    unfold rank0; rw [if_neg h]
  by_cases hs : 1 ≤ numSegments m.length conf.window_size
  · obtain ⟨t, ht, hall⟩ := core_char lib conf m hs
    have hev0 : evZero conf = Ev.rankFit 0 conf.num_components := by
      unfold evZero; rw [if_neg h]
    refine ⟨?_, ?_, ?_⟩
    · intro ev hev s
      rw [ht] at hev
      rcases List.mem_cons.mp hev with rfl | hmem
      · rw [hev0]; simp
      · obtain ⟨i, hi, rfl⟩ := hall ev hmem
        simp
    · intro ev hev s r hevs
      rw [ht] at hev
      rcases List.mem_cons.mp hev with rfl | hmem
      · rw [hev0] at hevs
        injection hevs with h1 h2
        exact h2.symm
      · obtain ⟨i, hi, rfl⟩ := hall ev hmem
        injection hevs with h1 h2
        rw [← h2, hr0]
    · intro _
      rw [ht, hev0]
      exact List.mem_cons_self _ t
  · have ht : (core lib conf m).1 = [] :=
      core_trace_nil lib conf m (by omega)
    refine ⟨?_, ?_, ?_⟩
    · intro ev hev; rw [ht] at hev; exact absurd hev (List.not_mem_nil ev)
    · intro ev hev; rw [ht] at hev; exact absurd hev (List.not_mem_nil ev)
    · intro hcon; exact absurd hcon hs

/-- C10 witness: the negative configured value −3 is passed through verbatim
as the rank of the segment-0 fit on a two-segment input. -/
theorem c10_witness :
    (-3 : ℤ) ≠ 0 ∧ Ev.rankFit 0 (-3) ∈ (core trivLib ⟨1, -3⟩ exM1).1 :=
  ⟨by decide,
   (c10_nonzero_rank_used_verbatim trivLib ⟨1, -3⟩ exM1 (by decide)).2.2
     (by decide)⟩
